import Mathlib

/-!
# Verification of the calendar day-grid rendering engine

A shallow embedding of the calendar application's core logic:

* the event normalizer and day/time-span queries
  (`useGoogleAuth.ts` / `useCalendarEvents`),
* the viewport/zoom controller of `CalendarGrid`
  (visible-range windowing, zoom-anchoring for slider and wheel paths),
* the time-span layer (`TimeSpanLayer`: window clipping and greedy row packing),
* the day-column renderer (`DayColumn`: compact chips and hour-grid positioning,
  in both the legacy `DayColumn.tsx` and the current `timeSpanRows`-aware version).

JavaScript `number` timestamps that can be `NaN` (invalid dates) are modelled as
`Option ℤ` with `none` for `NaN`; JS comparisons against `NaN` are `false`, which
the `jsLtB`/`jsGtB` helpers reproduce.  Continuous pixel quantities are modelled
as `ℚ`.
-/

/-- Milliseconds per day (all timestamps are ms since epoch, UTC-as-local). -/
def msPerDay : ℤ := 86400000

/-- A JS `number` holding a timestamp: `none` models `NaN` (invalid date). -/
abbrev JsNum := Option ℤ

/-- JS `a < b` on possibly-NaN numbers: any comparison with `NaN` is `false`. -/
def jsLtB (a b : JsNum) : Bool :=
  match a, b with
  | some a, some b => decide (a < b)
  | _, _ => false

/-- JS `a > b` on possibly-NaN numbers: any comparison with `NaN` is `false`. -/
def jsGtB (a b : JsNum) : Bool :=
  match a, b with
  | some a, some b => decide (a > b)
  | _, _ => false

/-- JS `a >= b` on possibly-NaN numbers: any comparison with `NaN` is `false`. -/
def jsGeB (a b : JsNum) : Bool :=
  match a, b with
  | some a, some b => decide (a ≥ b)
  | _, _ => false

/-- RSVP status enum of `types/index.ts`. -/
inductive Rsvp where
  | needsAction
  | declined
  | tentative
  | accepted
deriving DecidableEq, BEq, Repr

/-- The two account tags of `types/index.ts` (`'work' | 'private'`). -/
inductive AccountId where
  | work
  | «private»
deriving DecidableEq, BEq, Repr

/-- String form of the account tag, used in the composite event id. -/
def accountTag : AccountId → String
  | .work => "work"
  | .«private» => "private"

/-- `ACCOUNT_COLORS` of `useCalendarEvents`. -/
def ACCOUNT_COLORS : AccountId → String
  | .work => "#3b82f6"
  | .«private» => "#22c55e"

/-- `TIMESPAN_COLORS` of `useCalendarEvents` (current version). -/
def TIMESPAN_COLORS : AccountId → String
  | .work => "#6366f1"
  | .«private» => "#10b981"

/-- A calendar date `YYYY-MM-DD`, the parsed content of a Google `date` field. -/
structure ISODate where
  year : ℤ
  month : ℤ
  day : ℤ
deriving DecidableEq, Repr

/-- Days from the epoch 1970-01-01 to a civil date (the standard
days-from-civil computation used to model `date-fns`'s calendar maths). -/
def civilDays (d : ISODate) : ℤ :=
  let y := d.year - (if d.month ≤ 2 then 1 else 0)
  let era := Int.fdiv y 400
  let yoe := y - era * 400
  let mp := Int.emod (d.month + 9) 12
  let doy := Int.fdiv (153 * mp + 2) 5 + d.day - 1
  let doe := yoe * 365 + Int.fdiv yoe 4 - Int.fdiv yoe 100 + doy
  era * 146097 + doe - 719468

/-- Model of the raw string content of a Google `start`/`end` field value:
either the empty string (the `|| ''` fallback of `normalizeEvent`), a
date-only string `YYYY-MM-DD`, or a date-time string (a date plus the
milliseconds into that day). -/
inductive GDateStr where
  | empty
  | date (d : ISODate)
  | dateTime (d : ISODate) (msOfDay : ℤ)
deriving DecidableEq, Repr

/-- Is a civil date within the range `parseISO` accepts (months 1–12,
days 1–31; finer per-month validity does not matter to any claim)? -/
def validCivil (d : ISODate) : Bool :=
  decide (1 ≤ d.month) && decide (d.month ≤ 12) && decide (1 ≤ d.day) && decide (d.day ≤ 31)

/-- Model of `date-fns` `parseISO(...).getTime()`: the empty string and
malformed dates give an invalid date, whose `getTime()` is `NaN` (`none`). -/
def parseISOms : GDateStr → JsNum
  | .empty => none
  | .date d => if validCivil d then some (civilDays d * msPerDay) else none
  | .dateTime d ms =>
      if validCivil d && decide (0 ≤ ms) && decide (ms < msPerDay)
      then some (civilDays d * msPerDay + ms) else none

/-- `date-fns` `startOfDay` at the timestamp level (UTC-as-local). -/
def startOfDay (t : ℤ) : ℤ := Int.fdiv t msPerDay * msPerDay

/-- `parseGoogleDate` of `dateUtils.ts`: all-day strings are parsed and
snapped to midnight, date-times are parsed as-is; invalid input is `NaN`. -/
def parseGoogleDate (dateStr : GDateStr) (isAllDay : Bool) : JsNum :=
  if isAllDay then (parseISOms dateStr).map startOfDay else parseISOms dateStr

/-- `getDaysDifference` of `dateUtils.ts` (`date-fns` `differenceInDays`,
which truncates toward zero); `NaN` propagates. -/
def getDaysDifference (startTs endTs : JsNum) : JsNum :=
  match startTs, endTs with
  | some s, some e => some (Int.tdiv (e - s) msPerDay)
  | _, _ => none

/-- `GoogleCalendarAttendee` of `types/index.ts`. -/
structure GoogleCalendarAttendee where
  email : Option String := none
  responseStatus : Option Rsvp := none
  self : Option Bool := none
deriving DecidableEq, Repr

/-- A Google `start`/`end` field (`timeZone` is never read by the logic). -/
structure GDateField where
  dateTime : Option GDateStr := none
  date : Option GDateStr := none
deriving DecidableEq, Repr

/-- `GoogleCalendarEvent` of `types/index.ts` (the fields the normalizer reads). -/
structure GoogleCalendarEvent where
  id : String
  summary : Option String := none
  start : GDateField
  «end» : GDateField
  attendees : Option (List GoogleCalendarAttendee) := none
deriving DecidableEq, Repr

/-- `CalEvent` of `types/index.ts` (the fields the layout logic reads). -/
structure CalEvent where
  id : String
  accountId : AccountId
  title : String
  allDay : Bool
  startTs : JsNum
  endTs : JsNum
  color : String
  rsvpStatus : Option Rsvp := none
  isTimeSpan : Bool := false
deriving DecidableEq, Repr

/-- `normalizeEvent` of `useCalendarEvents` (current version): classifies
all-day vs timed, extracts the user's own RSVP from the `self` attendee,
parses both timestamps, and derives the time-span flag. -/
def normalizeEvent (event : GoogleCalendarEvent) (accountId : AccountId) : CalEvent :=
  let isAllDay := event.start.dateTime.isNone
  let startStr := (event.start.dateTime.orElse fun _ => event.start.date).getD .empty
  let endStr := (event.«end».dateTime.orElse fun _ => event.«end».date).getD .empty
  let rsvpStatus : Option Rsvp :=
    match event.attendees with
    | some attendees =>
        if attendees.length > 0 then
          match attendees.find? (fun a => a.self == some true) with
          | some userAttendee => userAttendee.responseStatus
          | none => none
        else none
    | none => none
  let startTs := parseGoogleDate startStr isAllDay
  let endTs := parseGoogleDate endStr isAllDay
  let isTimeSpan := isAllDay && jsGeB (getDaysDifference startTs endTs) (some 2)
  { id := accountTag accountId ++ "-" ++ event.id
    accountId := accountId
    title := event.summary.getD "(No title)"
    allDay := isAllDay
    startTs := startTs
    endTs := endTs
    color := if isTimeSpan then TIMESPAN_COLORS accountId else ACCOUNT_COLORS accountId
    rsvpStatus := rsvpStatus
    isTimeSpan := isTimeSpan }

/-- The normalization loop of `fetchEventsForAccount`: every page item is
normalized and pushed, unconditionally. -/
def normalizeAccountItems (items : List GoogleCalendarEvent) (accountId : AccountId) :
    List CalEvent :=
  items.map (fun item => normalizeEvent item accountId)

/-- `getEventsForDay` of `useCalendarEvents` (current version), with the day
given by its day number `d` (so `startOfDay = d * msPerDay` and `date-fns`
`endOfDay = d * msPerDay + 86399999`): keeps events overlapping the day,
not declined by the user, and not time spans. -/
def getEventsForDay (events : List CalEvent) (d : ℤ) : List CalEvent :=
  let dayStart := d * msPerDay
  let dayEnd := d * msPerDay + (msPerDay - 1)
  events.filter fun event =>
    jsLtB event.startTs (some dayEnd) && jsGtB event.endTs (some dayStart)
      && event.rsvpStatus != some Rsvp.declined
      && !event.isTimeSpan

/-- `getTimeSpans` of `useCalendarEvents` (current version). -/
def getTimeSpans (events : List CalEvent) : List CalEvent :=
  events.filter fun event =>
    event.isTimeSpan && event.rsvpStatus != some Rsvp.declined

/-! ## CalendarGrid: visible-range windowing and zoom anchoring -/

/-- `handleScroll` of `CalendarGrid` (both versions are identical): the
visible day-index window for the current scroll position, with a 10-day
buffer on each side. `timelineLength` is `dates.length`. -/
def computeVisibleRange (pxPerDay scrollLeft containerWidth : ℚ)
    (timelineLength : ℤ) : ℤ × ℤ :=
  let buffer : ℤ := 10
  let startIndex := max 0 (⌊scrollLeft / pxPerDay⌋ - buffer)
  let endIndex := min timelineLength (⌈(scrollLeft + containerWidth) / pxPerDay⌉ + buffer)
  (startIndex, endIndex)

/-- The spec's stated contract for the visible range, written from §4.1's
words with an explicit `buffer`, to be compared with `computeVisibleRange`. -/
def specVisibleRange (pxPerDay scrollOffsetPx containerWidthPx : ℚ)
    (timelineLength buffer : ℤ) : ℤ × ℤ :=
  (max 0 (⌊scrollOffsetPx / pxPerDay⌋ - buffer),
   min timelineLength (⌈(scrollOffsetPx + containerWidthPx) / pxPerDay⌉ + buffer))

/-- The fractional day index at the horizontal center of the viewport
(`centerPosition / pxPerDay` as computed by both zoom-anchor code paths). -/
def impliedCenterIndex (pxPerDay scrollLeft containerWidth : ℚ) : ℚ :=
  (scrollLeft + containerWidth / 2) / pxPerDay

/-- The zoom-anchoring scroll correction of `CalendarGrid`'s `useEffect`
(slider/preset path): read the center day index under the old scale, then
place it back at the center under the new scale, clamped to `≥ 0`.  The
container width is assumed stable across the deferred animation frames. -/
def zoomAnchorScrollEffect (oldPxPerDay newPxPerDay scrollLeft containerWidth : ℚ) : ℚ :=
  let centerDayIndex := (scrollLeft + containerWidth / 2) / oldPxPerDay
  max 0 (centerDayIndex * newPxPerDay - containerWidth / 2)

/-- The center day index captured by `handleWheel` before zooming. -/
def wheelCenterDayIndex (pxPerDay scrollLeft containerWidth : ℚ) : ℚ :=
  (scrollLeft + containerWidth / 2) / pxPerDay

/-- The deferred scroll adjustment applied by `handleWheel` after the new
zoom value has rendered (same container width observed). -/
def wheelScrollAdjustment (centerDayIndex newPxPerDay containerWidth : ℚ) : ℚ :=
  max 0 (centerDayIndex * newPxPerDay - containerWidth / 2)

/-- The wheel path's end-to-end anchor correction: capture the center under
the old scale, apply the adjustment under the new scale. -/
def wheelZoomAnchorScroll (oldPxPerDay newPxPerDay scrollLeft containerWidth : ℚ) : ℚ :=
  wheelScrollAdjustment (wheelCenterDayIndex oldPxPerDay scrollLeft containerWidth)
    newPxPerDay containerWidth

/-! ## TimeSpanLayer: window clipping and greedy row packing -/

/-- One entry of `spansWithPositions` in `TimeSpanLayer`. -/
structure SpanPos where
  span : CalEvent
  left : ℚ
  width : ℚ
  startIndex : ℤ
  endIndex : ℤ
  originalStartIndex : ℤ
  originalEndIndex : ℤ
deriving DecidableEq, Repr

/-- JS `dates.findIndex((d) => isSameDay(d, day))` over the timeline (a list
of day numbers): `-1` when absent. -/
def findDayIndex (dates : List ℤ) (day : ℤ) : ℤ :=
  match dates.findIdx? (fun d => d == day) with
  | some i => (i : ℤ)
  | none => -1

/-- The position computation of `TimeSpanLayer`'s `visibleTimeSpans` map
for one span: resolve start/end day indices (`-1` outside the timeline,
`NaN` timestamps never match a day), drop spans wholly outside the
timeline or the visible range, clip `left`/`width` to the visible range,
and keep the original (unclipped) indices. -/
def spanPosition (dates : List ℤ) (pxPerDay : ℚ) (visibleRange : ℤ × ℤ)
    (span : CalEvent) : Option SpanPos :=
  let startDay : JsNum := span.startTs.map (fun t => Int.fdiv t msPerDay)
  let endDay : JsNum :=
    if span.allDay then span.endTs.map (fun t => Int.fdiv t msPerDay - 1)
    else span.endTs.map (fun t => Int.fdiv t msPerDay)
  let startIndex := match startDay with
    | some d => findDayIndex dates d
    | none => -1
  let endIndex := match endDay with
    | some d => findDayIndex dates d
    | none => -1
  if startIndex = -1 ∧ endIndex = -1 then none
  else
    let visibleStart := max 0 (if startIndex = -1 then 0 else startIndex)
    let visibleEnd := min ((dates.length : ℤ) - 1)
      (if endIndex = -1 then (dates.length : ℤ) - 1 else endIndex)
    if visibleEnd < visibleRange.1 ∨ visibleStart > visibleRange.2 then none
    else
      let actualStart := max visibleStart visibleRange.1
      let actualEnd := min visibleEnd visibleRange.2
      some
        { span := span
          left := (actualStart : ℚ) * pxPerDay
          width := ((actualEnd - actualStart + 1 : ℤ) : ℚ) * pxPerDay
          startIndex := actualStart
          endIndex := actualEnd
          originalStartIndex := if startIndex ≠ -1 then startIndex else visibleStart
          originalEndIndex := if endIndex ≠ -1 then endIndex else visibleEnd }

/-- The filtered `spansWithPositions` list (before sorting). -/
def spansWithPositions (dates : List ℤ) (pxPerDay : ℚ) (visibleRange : ℤ × ℤ)
    (timeSpans : List CalEvent) : List SpanPos :=
  timeSpans.filterMap (spanPosition dates pxPerDay visibleRange)

/-- The overlap test of the row-assignment loop: `span` overlaps
`existingSpan` iff one starts before the other ends (original indices). -/
def spanOverlapB (span existingSpan : SpanPos) : Bool :=
  decide (span.originalStartIndex ≤ existingSpan.originalEndIndex) &&
    decide (span.originalEndIndex ≥ existingSpan.originalStartIndex)

/-- Stable insertion of a span into a list sorted by `originalStartIndex`
(equal keys keep their existing order, as JS's stable `sort` does). -/
def insertByOrigStart (a : SpanPos) : List SpanPos → List SpanPos
  | [] => [a]
  | b :: t =>
      if a.originalStartIndex < b.originalStartIndex then a :: b :: t
      else b :: insertByOrigStart a t

/-- `spansWithPositions.sort((a, b) => a.originalStartIndex - b.originalStartIndex)`:
a stable sort by original start index. -/
def sortByOrigStart (l : List SpanPos) : List SpanPos :=
  l.foldl (fun acc a => insertByOrigStart a acc) []

/-- One step of the row-assignment loop: put the span in the first row none
of whose members overlaps it, or open a new row at the end. -/
def addToRows (rows : List (List SpanPos)) (span : SpanPos) : List (List SpanPos) :=
  match rows with
  | [] => [[span]]
  | row :: rest =>
      if row.any (fun existingSpan => spanOverlapB span existingSpan)
      then row :: addToRows rest span
      else (row ++ [span]) :: rest

/-- The rows built by the row-assignment loop over the sorted span list. -/
def buildRows (sortedSpans : List SpanPos) : List (List SpanPos) :=
  sortedSpans.foldl addToRows []

/-- `rows.findIndex((row) => row.includes(span))`, with `includes` modelled
by event-id equality (ids are unique across the merged set), and the code's
`rowIndex !== -1 ? rowIndex : 0` fallback. -/
def rowIndexOf (rows : List (List SpanPos)) (span : SpanPos) : ℤ :=
  match rows.findIdx? (fun row => row.any (fun s => s.span.id == span.span.id)) with
  | some i => (i : ℤ)
  | none => 0

/-- The final value of `visibleTimeSpans`: the sorted spans, each paired with
its assigned row index. -/
def visibleTimeSpans (dates : List ℤ) (pxPerDay : ℚ) (visibleRange : ℤ × ℤ)
    (timeSpans : List CalEvent) : List (SpanPos × ℤ) :=
  let sorted := sortByOrigStart (spansWithPositions dates pxPerDay visibleRange timeSpans)
  let rows := buildRows sorted
  sorted.map (fun s => (s, rowIndexOf rows s))

/-- Event id ↦ assigned row, the observable lane assignment of one layout pass. -/
def rowIndexList (dates : List ℤ) (pxPerDay : ℚ) (visibleRange : ℤ × ℤ)
    (timeSpans : List CalEvent) : List (String × ℤ) :=
  (visibleTimeSpans dates pxPerDay visibleRange timeSpans).map
    (fun p => (p.1.span.id, p.2))

/-! ## DayColumn: hour-grid positioning and compact chips -/

/-- `COMPACT_THRESHOLD` of `DayColumn`. -/
def COMPACT_THRESHOLD : ℚ := 80

/-- `pxPerDay < COMPACT_THRESHOLD` selects compact mode. -/
def isCompactMode (pxPerDay : ℚ) : Bool := decide (pxPerDay < COMPACT_THRESHOLD)

/-- Minutes into the day of a timestamp (`getHours(date) * 60 + getMinutes(date)`,
which truncates seconds). -/
def totalMinutesOfDay (t : ℤ) : ℤ := Int.fdiv (Int.emod t msPerDay) 60000

/-- `getTimePosition` of `dateUtils.ts`: percentage position of a time
within the visible hour range. -/
def getTimePosition (t : ℤ) (startHour endHour : ℤ) : ℚ :=
  let totalMinutes := totalMinutesOfDay t
  let startMinutes := startHour * 60
  let rangeMinutes := (endHour - startHour) * 60
  ((totalMinutes - startMinutes : ℤ) : ℚ) / (rangeMinutes : ℚ) * 100

/-- `getEventHeight` of `dateUtils.ts`: duration as a percentage of the
visible hour range (`differenceInMinutes` truncates toward zero). -/
def getEventHeight (startTs endTs : ℤ) (startHour endHour : ℤ) : ℚ :=
  let minutes := Int.tdiv (endTs - startTs) 60000
  let rangeMinutes := (endHour - startHour) * 60
  ((minutes : ℤ) : ℚ) / (rangeMinutes : ℚ) * 100

/-- `START_HOUR` of `DayColumn`. -/
def START_HOUR : ℤ := 7

/-- `END_HOUR` of `DayColumn`. -/
def END_HOUR : ℤ := 22

/-- The positioned-event style computation of the current `DayColumn`
(the `timeSpanRows`-aware version): skip events entirely outside the hour
range, clip the top at 0, reduce the height by the clipped-off amount,
clip the bottom at 100, then apply the 2% minimum-height floor.  Returns
`some (top, height)` in percent, or `none` when the event is omitted. -/
def positionedEventStyle (startTs endTs : ℤ) : Option (ℚ × ℚ) :=
  let top := getTimePosition startTs START_HOUR END_HOUR
  let height := getEventHeight startTs endTs START_HOUR END_HOUR
  if top ≥ 100 ∨ top + height ≤ 0 then none
  else
    let actualTop := max 0 top
    let reducedHeight := if top < 0 then height + top else height
    let bottomPosition := actualTop + reducedHeight
    let clippedHeight := if bottomPosition > 100 then 100 - actualTop else reducedHeight
    some (actualTop, max clippedHeight 2)

/-- The positioned-event style computation of the legacy `DayColumn.tsx`:
`top = max(0, top)`, `height = max(min(height, 100 - max(0, top)), 2)`. -/
def positionedEventStyleLegacy (startTs endTs : ℤ) : Option (ℚ × ℚ) :=
  let top := getTimePosition startTs START_HOUR END_HOUR
  let height := getEventHeight startTs endTs START_HOUR END_HOUR
  if top ≥ 100 ∨ top + height ≤ 0 then none
  else some (max 0 top, max (min height (100 - max 0 top)) 2)

/-- One rendered node of a day column's timed-event area. -/
inductive TimedRender where
  | chip (id : String)
  | positioned (id : String) (top height : ℚ)
  | moreIndicator (text : String)
deriving DecidableEq, Repr

/-- The timed-event area of the legacy `DayColumn.tsx`: in compact mode, up
to 5 chips plus a `"+N more"` indicator; otherwise positioned events.
Events reaching a day column come from `getEventsForDay`, whose `NaN`-safe
comparisons admit only numeric timestamps, so the `none` timestamp cases
are unreachable here and are skipped. -/
def dayContentTimedLegacy (isCompact : Bool) (timedEvents : List CalEvent) :
    List TimedRender :=
  if isCompact then
    (timedEvents.take 5).map (fun e => .chip e.id) ++
      (if timedEvents.length > 5 then
        [.moreIndicator ("+" ++ toString (timedEvents.length - 5) ++ " more")]
      else [])
  else
    timedEvents.filterMap fun e =>
      match e.startTs, e.endTs with
      | some s, some t =>
          (positionedEventStyleLegacy s t).map fun p => .positioned e.id p.1 p.2
      | _, _ => none

/-- The timed-event area of the current `DayColumn` (the `timeSpanRows`-aware
version): events are "always positioned regardless of zoom" — there is no
compact branch, no chip cap and no overflow indicator; compact mode only
hides the hour lines. -/
def dayContentTimedCurrent (timedEvents : List CalEvent) : List TimedRender :=
  timedEvents.filterMap fun e =>
    match e.startTs, e.endTs with
    | some s, some t =>
        (positionedEventStyle s t).map fun p => .positioned e.id p.1 p.2
    | _, _ => none

/-! ## C1: zoom-anchoring round trip -/

/-- C1: for every scroll offset `s ≥ 0` and container width `w > 0`, zooming
100 → 200 and back 200 → 100 with the anchor-preserving scroll correction
returns a scroll offset whose implied center index is within 1 unit of the
original center index `k` — on the slider/preset `useEffect` path and on
the wheel path alike (both in fact preserve the center exactly). -/
theorem zoom_anchor_roundtrip (s w : ℚ) (hs : 0 ≤ s) (hw : 0 < w) :
    |impliedCenterIndex 100
        (zoomAnchorScrollEffect 200 100 (zoomAnchorScrollEffect 100 200 s w) w) w
      - impliedCenterIndex 100 s w| ≤ 1 ∧
    |impliedCenterIndex 100
        (wheelZoomAnchorScroll 200 100 (wheelZoomAnchorScroll 100 200 s w) w) w
      - impliedCenterIndex 100 s w| ≤ 1 := by
  have e1 : (s + w / 2) / 100 * 200 - w / 2 = 2 * s + w / 2 := by ring
  have e2 : (2 * s + w / 2 + w / 2) / 200 * 100 - w / 2 = s := by ring
  have h1 : zoomAnchorScrollEffect 100 200 s w = 2 * s + w / 2 := by
    show max 0 ((s + w / 2) / 100 * 200 - w / 2) = 2 * s + w / 2
    rw [e1, max_eq_right (by linarith)]
  have h2 : zoomAnchorScrollEffect 200 100 (2 * s + w / 2) w = s := by
    show max 0 ((2 * s + w / 2 + w / 2) / 200 * 100 - w / 2) = s
    rw [e2, max_eq_right hs]
  have h1w : wheelZoomAnchorScroll 100 200 s w = 2 * s + w / 2 := by
    show max 0 ((s + w / 2) / 100 * 200 - w / 2) = 2 * s + w / 2
    rw [e1, max_eq_right (by linarith)]
  have h2w : wheelZoomAnchorScroll 200 100 (2 * s + w / 2) w = s := by
    show max 0 ((2 * s + w / 2 + w / 2) / 200 * 100 - w / 2) = s
    rw [e2, max_eq_right hs]
  constructor
  · rw [h1, h2, sub_self, abs_zero]; norm_num
  · rw [h1w, h2w, sub_self, abs_zero]; norm_num

/-- C1 witness: the round trip at scroll offset 300 and container width 800. -/
theorem zoom_anchor_roundtrip_witness :
    (0 : ℚ) ≤ 300 ∧ (0 : ℚ) < 800 ∧
    (|impliedCenterIndex 100
        (zoomAnchorScrollEffect 200 100 (zoomAnchorScrollEffect 100 200 300 800) 800) 800
      - impliedCenterIndex 100 300 800| ≤ 1 ∧
    |impliedCenterIndex 100
        (wheelZoomAnchorScroll 200 100 (wheelZoomAnchorScroll 100 200 300 800) 800) 800
      - impliedCenterIndex 100 300 800| ≤ 1) :=
  ⟨by norm_num, by norm_num, zoom_anchor_roundtrip 300 800 (by norm_num) (by norm_num)⟩

/-! ## C2: visible-range contract -/

/-- C2 counterexample: at `pxPerDay = 100`, `scrollOffsetPx = 100000`,
`containerWidthPx = 500`, `timelineLength = 121` — a scroll offset beyond
the content width — `computeVisibleRange` returns `(990, 121)`, so
`startIndex ≤ endIndex` and `startIndex ≤ timelineLength` both fail,
refuting the claim as stated for arbitrary `scrollOffsetPx ≥ 0`. -/
theorem computeVisibleRange_unbounded_counterexample :
    computeVisibleRange 100 100000 500 121 = (990, 121) ∧
    ¬((computeVisibleRange 100 100000 500 121).1 ≤
        (computeVisibleRange 100 100000 500 121).2) := by
  have hfl : ⌊(100000 : ℚ) / 100⌋ = 1000 := by norm_num
  have hcl : ⌈((100000 : ℚ) + 500) / 100⌉ = 1005 := by
    rw [show ((100000 : ℚ) + 500) / 100 = ((1005 : ℤ) : ℚ) by norm_num, Int.ceil_intCast]
  have heq : computeVisibleRange 100 100000 500 121 = (990, 121) := by
    simp only [computeVisibleRange, hfl, hcl]
    norm_num
  exact ⟨heq, by rw [heq]; decide⟩

/-- C2 (amended): for `pxPerDay ∈ [30, 250]`, `scrollOffsetPx ≥ 0`,
`containerWidthPx ≥ 0` and `0 ≤ timelineLength`, provided additionally that
the scroll offset lies within the content width
(`scrollOffsetPx ≤ timelineLength * pxPerDay`, which the browser's scroll
clamping guarantees), `computeVisibleRange` equals the spec's formula with
buffer 10 and satisfies `startIndex ≤ endIndex` with both indices in
`[0, timelineLength]`. -/
theorem computeVisibleRange_contract (p s w : ℚ) (L : ℤ)
    (hp : 30 ≤ p) (hp' : p ≤ 250) (hs : 0 ≤ s) (hw : 0 ≤ w) (hL : 0 ≤ L)
    (hcontent : s ≤ (L : ℚ) * p) :
    computeVisibleRange p s w L = specVisibleRange p s w L 10 ∧
    (computeVisibleRange p s w L).1 ≤ (computeVisibleRange p s w L).2 ∧
    0 ≤ (computeVisibleRange p s w L).1 ∧
    (computeVisibleRange p s w L).2 ≤ L := by
  have hp0 : (0 : ℚ) < p := by linarith
  have hfloor_le : ⌊s / p⌋ ≤ L := by
    have hdiv : s / p ≤ (L : ℚ) := by
      rw [div_le_iff hp0]; exact hcontent
    calc ⌊s / p⌋ ≤ ⌊(L : ℚ)⌋ := Int.floor_le_floor hdiv
      _ = L := Int.floor_intCast L
  have hceil0 : 0 ≤ ⌈(s + w) / p⌉ := Int.ceil_nonneg (by positivity)
  have hfc : ⌊s / p⌋ ≤ ⌈(s + w) / p⌉ :=
    calc ⌊s / p⌋ ≤ ⌈s / p⌉ := Int.floor_le_ceil _
      _ ≤ ⌈(s + w) / p⌉ := Int.ceil_le_ceil ((div_le_div_right hp0).mpr (by linarith))
  refine ⟨rfl, ?_, ?_, ?_⟩
  · simp only [computeVisibleRange]
    exact max_le (le_min hL (by linarith))
      (le_min (by linarith) (by linarith))
  · exact le_max_left 0 _
  · exact min_le_left L _

/-- C2 witness: the amended contract at `pxPerDay = 100`,
`scrollOffsetPx = 5000`, `containerWidthPx = 800`, `timelineLength = 121`. -/
theorem computeVisibleRange_contract_witness :
    ((30 : ℚ) ≤ 100 ∧ (100 : ℚ) ≤ 250 ∧ (0 : ℚ) ≤ 5000 ∧ (0 : ℚ) ≤ 800 ∧
      (0 : ℤ) ≤ 121 ∧ (5000 : ℚ) ≤ ((121 : ℤ) : ℚ) * 100) ∧
    (computeVisibleRange 100 5000 800 121 = specVisibleRange 100 5000 800 121 10 ∧
      (computeVisibleRange 100 5000 800 121).1 ≤ (computeVisibleRange 100 5000 800 121).2 ∧
      0 ≤ (computeVisibleRange 100 5000 800 121).1 ∧
      (computeVisibleRange 100 5000 800 121).2 ≤ 121) :=
  ⟨⟨by norm_num, by norm_num, by norm_num, by norm_num, by norm_num, by norm_num⟩,
    computeVisibleRange_contract 100 5000 800 121 (by norm_num) (by norm_num)
      (by norm_num) (by norm_num) (by norm_num) (by norm_num)⟩

/-! ## C10: day membership at midnight boundaries -/

/-- C10: day membership is strict interval overlap against
`endOfDay = d·ms + 86399999`.  (a) An event whose `endTs` is exactly
midnight of day `d` is not in `getEventsForDay d`.  (b) A one-day all-day
event `[d·ms, (d+1)·ms)` (not declined, not a time span) appears in exactly
one day column, its start day `d`.  (c) A zero-duration event at midnight
of day `d` does not appear in the column of day `d - 1`, the day it
borders on the left. -/
theorem getEventsForDay_day_membership :
    (∀ (events : List CalEvent) (e : CalEvent) (d : ℤ),
        e.endTs = some (d * msPerDay) → e ∉ getEventsForDay events d) ∧
    (∀ (events : List CalEvent) (e : CalEvent) (d d' : ℤ),
        e ∈ events →
        e.startTs = some (d * msPerDay) → e.endTs = some ((d + 1) * msPerDay) →
        e.rsvpStatus ≠ some Rsvp.declined → e.isTimeSpan = false →
        (e ∈ getEventsForDay events d' ↔ d' = d)) ∧
    (∀ (events : List CalEvent) (e : CalEvent) (d : ℤ),
        e.startTs = some (d * msPerDay) → e.endTs = some (d * msPerDay) →
        e ∉ getEventsForDay events (d - 1)) := by
  refine ⟨?_, ?_, ?_⟩
  · intro events e d hend h
    simp only [getEventsForDay, List.mem_filter, Bool.and_eq_true] at h
    rcases h with ⟨-, ⟨⟨⟨-, hgt⟩, -⟩, -⟩⟩
    rw [hend] at hgt
    simp only [jsGtB, gt_iff_lt, decide_eq_true_eq] at hgt
    omega
  · intro events e d d' hmem hstart hend hrsvp hts
    have hb : (e.rsvpStatus != some Rsvp.declined) = true := by
      cases hr : e.rsvpStatus with
      | none => rfl
      | some r =>
        cases r with
        | declined => exact absurd hr hrsvp
        | needsAction => rfl
        | tentative => rfl
        | accepted => rfl
    constructor
    · intro h
      simp only [getEventsForDay, List.mem_filter, Bool.and_eq_true] at h
      rcases h with ⟨-, ⟨⟨⟨hlt, hgt⟩, -⟩, -⟩⟩
      rw [hstart] at hlt
      rw [hend] at hgt
      simp only [jsLtB, jsGtB, gt_iff_lt, decide_eq_true_eq, msPerDay] at hlt hgt
      omega
    · rintro rfl
      simp only [getEventsForDay, List.mem_filter, Bool.and_eq_true]
      refine ⟨hmem, ⟨⟨?_, ?_⟩, hb⟩, ?_⟩
      · rw [hstart]
        simp only [jsLtB, decide_eq_true_eq, msPerDay]
        omega
      · rw [hend]
        simp only [jsGtB, gt_iff_lt, decide_eq_true_eq, msPerDay]
        omega
      · simp [hts]
  · intro events e d hstart hend h
    simp only [getEventsForDay, List.mem_filter, Bool.and_eq_true] at h
    rcases h with ⟨-, ⟨⟨⟨hlt, -⟩, -⟩, -⟩⟩
    rw [hstart] at hlt
    simp only [jsLtB, decide_eq_true_eq, msPerDay] at hlt
    omega

/-- A one-day all-day event on day 5 (exclusive end at day-6 midnight). -/
def wOneDayEvent : CalEvent :=
  { id := "w-one"
    accountId := .work
    title := "t"
    allDay := true
    startTs := some (5 * msPerDay)
    endTs := some (6 * msPerDay)
    color := "#3b82f6" }

/-- A zero-duration event at midnight of day 4. -/
def wZeroDurEvent : CalEvent :=
  { id := "w-zero"
    accountId := .work
    title := "t"
    allDay := false
    startTs := some (4 * msPerDay)
    endTs := some (4 * msPerDay)
    color := "#3b82f6" }

/-- C10 witness: the one-day all-day event is in day 5's column and in that
column only; it is not in day 6's column (its exclusive-end midnight); the
zero-duration event at midnight of day 4 is not in day 3's column. -/
theorem getEventsForDay_day_membership_witness :
    (wOneDayEvent ∈ getEventsForDay [wOneDayEvent] 5 ↔ (5 : ℤ) = 5) ∧
    (wOneDayEvent ∈ getEventsForDay [wOneDayEvent] 6 ↔ (6 : ℤ) = 5) ∧
    wOneDayEvent ∉ getEventsForDay [wOneDayEvent] 6 ∧
    wZeroDurEvent ∉ getEventsForDay [wZeroDurEvent] 3 := by
  refine ⟨?_, ?_, ?_, ?_⟩
  · exact getEventsForDay_day_membership.2.1 _ _ 5 5 (by simp) rfl
      (by norm_num [wOneDayEvent]) (by decide) rfl
  · exact getEventsForDay_day_membership.2.1 _ _ 5 6 (by simp) rfl
      (by norm_num [wOneDayEvent]) (by decide) rfl
  · exact getEventsForDay_day_membership.1 _ _ 6 rfl
  · exact getEventsForDay_day_membership.2.2 _ _ 4 rfl rfl

/-! ## C9: RSVP comes only from the `self` attendee -/

/-- C9: `rsvpStatus` is derived only from the attendee entry with
`self = true`.  (a) If no attendee is the user (including no attendees at
all), the normalized `rsvpStatus` is `undefined` (`none`) — even if some
other attendee has `responseStatus = declined`.  (b) An event with
`rsvpStatus = none` passes the declined filter of both `getEventsForDay`
(membership degenerates to overlap-and-not-time-span) and `getTimeSpans`
(membership degenerates to the time-span flag).  (c) The normalizer
reports `declined` only when the user's own attendee entry is declined. -/
theorem rsvpStatus_self_only :
    (∀ (event : GoogleCalendarEvent) (acct : AccountId),
        (∀ a ∈ event.attendees.getD [], a.self ≠ some true) →
        (normalizeEvent event acct).rsvpStatus = none) ∧
    (∀ (e : CalEvent), e.rsvpStatus = none →
        (∀ (events : List CalEvent) (d : ℤ),
          e ∈ getEventsForDay events d ↔ e ∈ events ∧
            (jsLtB e.startTs (some (d * msPerDay + (msPerDay - 1))) &&
              jsGtB e.endTs (some (d * msPerDay)) && !e.isTimeSpan) = true) ∧
        (∀ events : List CalEvent,
          e ∈ getTimeSpans events ↔ e ∈ events ∧ e.isTimeSpan = true)) ∧
    (∀ (event : GoogleCalendarEvent) (acct : AccountId),
        (normalizeEvent event acct).rsvpStatus = some Rsvp.declined →
        ∃ l a, event.attendees = some l ∧ a ∈ l ∧ a.self == some true ∧
          a.responseStatus = some Rsvp.declined) := by
  refine ⟨?_, ?_, ?_⟩
  · intro event acct hnoself
    simp only [normalizeEvent]
    cases hatt : event.attendees with
    | none => simp
    | some l =>
        rw [hatt] at hnoself
        simp only [Option.getD_some] at hnoself
        have hfind : l.find? (fun a => a.self == some true) = none := by
          rw [List.find?_eq_none]
          intro a ha
          simpa using hnoself a ha
        simp [hfind]
  · intro e hnone
    have hne : ((none : Option Rsvp) != some Rsvp.declined) = true := by decide
    constructor
    · intro events d
      simp only [getEventsForDay, List.mem_filter, hnone, hne, Bool.and_true]
    · intro events
      simp only [getTimeSpans, List.mem_filter, hnone, hne, Bool.and_true,
        Bool.and_eq_true]
  · intro event acct hdecl
    simp only [normalizeEvent] at hdecl
    cases hatt : event.attendees with
    | none => rw [hatt] at hdecl; simp at hdecl
    | some l =>
        rw [hatt] at hdecl
        simp only at hdecl
        by_cases hlen : l.length > 0
        · simp only [hlen, if_true] at hdecl
          cases hfind : l.find? (fun a => a.self == some true) with
          | none => rw [hfind] at hdecl; simp at hdecl
          | some a =>
              rw [hfind] at hdecl
              have hpa := List.find?_some hfind
              have hpa' : (a.self == some true) = true := by simpa using hpa
              exact ⟨l, a, rfl, List.mem_of_find?_eq_some hfind, hpa', hdecl⟩
        · simp only [hlen, if_false] at hdecl
          simp at hdecl

/-- A raw event whose only attendee is someone else who declined. -/
def rawOtherDeclined : GoogleCalendarEvent :=
  { id := "e1"
    start := { date := some (.date ⟨1970, 1, 1⟩) }
    «end» := { date := some (.date ⟨1970, 1, 2⟩) }
    attendees := some
      [{ email := some "other@x"
         responseStatus := some Rsvp.declined
         self := some false }] }

/-- A timed event (day 0, one hour) with no RSVP. -/
def wTimedEvent : CalEvent :=
  { id := "w-timed"
    accountId := .work
    title := "t"
    allDay := false
    startTs := some 0
    endTs := some 3600000
    color := "c" }

/-- C9 witness: the event whose only attendee is another declined attendee
normalizes with `rsvpStatus = none`; and for a no-RSVP event, membership in
`getEventsForDay` is decided by overlap and the span flag alone. -/
theorem rsvpStatus_self_only_witness :
    (normalizeEvent rawOtherDeclined .work).rsvpStatus = none ∧
    (wTimedEvent ∈ getEventsForDay [wTimedEvent] 0 ↔ wTimedEvent ∈ [wTimedEvent] ∧
      (jsLtB wTimedEvent.startTs (some (0 * msPerDay + (msPerDay - 1))) &&
        jsGtB wTimedEvent.endTs (some (0 * msPerDay)) &&
        !wTimedEvent.isTimeSpan) = true) := by
  constructor
  · exact rsvpStatus_self_only.1 _ .work (by decide)
  · exact (rsvpStatus_self_only.2.1 _ rfl).1 _ 0

/-! ## C7: time-span classification and coverage -/

/-- A raw all-day event from day-0 midnight to day-2 midnight (the
provider's exclusive-end convention). -/
def rawTwoDayAllDay : GoogleCalendarEvent :=
  { id := "span2"
    start := { date := some (.date ⟨1970, 1, 1⟩) }
    «end» := { date := some (.date ⟨1970, 1, 3⟩) } }

/-- C7: `isTimeSpan` is true iff the event is all-day and the day count
between `startTs` and `endTs` is at least 2; and the concrete all-day event
with `startTs` at day-0 midnight and `endTs` at day-2 midnight classifies
as a time span whose rendered span covers exactly day 0 and day 1
(both the clipped and the original index interval are `[0, 1]`; the
exclusive end day 2 is excluded). -/
theorem isTimeSpan_classification :
    (∀ (event : GoogleCalendarEvent) (acct : AccountId),
        (normalizeEvent event acct).isTimeSpan =
          ((normalizeEvent event acct).allDay &&
            jsGeB (getDaysDifference (normalizeEvent event acct).startTs
              (normalizeEvent event acct).endTs) (some 2))) ∧
    ((normalizeEvent rawTwoDayAllDay .work).allDay = true ∧
      (normalizeEvent rawTwoDayAllDay .work).startTs = some 0 ∧
      (normalizeEvent rawTwoDayAllDay .work).endTs = some (2 * msPerDay) ∧
      (normalizeEvent rawTwoDayAllDay .work).isTimeSpan = true ∧
      (spanPosition [0, 1, 2, 3, 4] 100 (0, 4)
          (normalizeEvent rawTwoDayAllDay .work)).map
          (fun sp =>
            (sp.startIndex, sp.endIndex, sp.originalStartIndex, sp.originalEndIndex))
        = some (0, 1, 0, 1)) := by
  constructor
  · intro event acct
    rfl
  · refine ⟨by decide, by decide, by decide, by decide, by decide⟩

/-! ## C8: malformed events -/

/-- A raw event with neither a `date` nor a `dateTime` on start and end. -/
def rawNoDates : GoogleCalendarEvent :=
  { id := "nodates"
    start := {}
    «end» := {} }

/-- C8 counterexample: an event missing both date fields is NOT dropped by
normalization — the fetch loop pushes it into the merged set (one input
item yields one merged event), with `NaN` timestamps. -/
theorem normalize_keeps_dateless_event :
    (normalizeAccountItems [rawNoDates] .work).length = 1 ∧
    (normalizeEvent rawNoDates .work).startTs = none ∧
    (normalizeEvent rawNoDates .work).endTs = none := by
  refine ⟨rfl, by decide, by decide⟩

/-- C8 (amended): normalization drops nothing — an event with neither date
field reaches the merged set, but with `NaN` (`none`) timestamps and
`isTimeSpan = false`, and the `NaN`-safe comparisons then exclude it from
`getEventsForDay` (for every day) and from `getTimeSpans`, so it never
reaches layout math; a missing title is replaced by the placeholder
`"(No title)"` rather than failing. -/
theorem normalize_malformed_handling :
    (∀ (items : List GoogleCalendarEvent) (acct : AccountId),
        (normalizeAccountItems items acct).length = items.length) ∧
    (∀ (event : GoogleCalendarEvent) (acct : AccountId),
        event.start.dateTime = none → event.start.date = none →
        (normalizeEvent event acct).startTs = none ∧
        (normalizeEvent event acct).isTimeSpan = false) ∧
    (∀ (event : GoogleCalendarEvent) (acct : AccountId),
        event.«end».dateTime = none → event.«end».date = none →
        (normalizeEvent event acct).endTs = none) ∧
    (∀ (e : CalEvent), e.startTs = none →
        ∀ (events : List CalEvent) (d : ℤ), e ∉ getEventsForDay events d) ∧
    (∀ (e : CalEvent), e.isTimeSpan = false →
        ∀ events : List CalEvent, e ∉ getTimeSpans events) ∧
    (∀ (event : GoogleCalendarEvent) (acct : AccountId),
        event.summary = none → (normalizeEvent event acct).title = "(No title)") := by
  refine ⟨?_, ?_, ?_, ?_, ?_, ?_⟩
  · intro items acct
    simp [normalizeAccountItems]
  · intro event acct h1 h2
    constructor
    · simp [normalizeEvent, h1, h2, parseGoogleDate, parseISOms]
    · simp [normalizeEvent, h1, h2, parseGoogleDate, parseISOms,
        getDaysDifference, jsGeB]
  · intro event acct h1 h2
    simp [normalizeEvent, h1, h2, parseGoogleDate, parseISOms]
  · intro e hstart events d h
    simp only [getEventsForDay, List.mem_filter, Bool.and_eq_true] at h
    rcases h with ⟨-, ⟨⟨⟨hlt, -⟩, -⟩, -⟩⟩
    rw [hstart] at hlt
    simp [jsLtB] at hlt
  · intro e hts events h
    simp only [getTimeSpans, List.mem_filter, Bool.and_eq_true] at h
    rcases h with ⟨-, hspan, -⟩
    rw [hts] at hspan
    exact Bool.false_ne_true hspan
  · intro event acct h
    simp [normalizeEvent, h]

/-- C8 witness: the amended behavior at the concrete dateless, titleless
event `rawNoDates`. -/
theorem normalize_malformed_handling_witness :
    (normalizeAccountItems [rawNoDates] .work).length = [rawNoDates].length ∧
    ((normalizeEvent rawNoDates .work).startTs = none ∧
      (normalizeEvent rawNoDates .work).isTimeSpan = false) ∧
    (normalizeEvent rawNoDates .work).endTs = none ∧
    normalizeEvent rawNoDates .work ∉
      getEventsForDay [normalizeEvent rawNoDates .work] 0 ∧
    normalizeEvent rawNoDates .work ∉
      getTimeSpans [normalizeEvent rawNoDates .work] ∧
    (normalizeEvent rawNoDates .work).title = "(No title)" := by
  have h2 := normalize_malformed_handling.2.1 rawNoDates .work rfl rfl
  exact ⟨normalize_malformed_handling.1 [rawNoDates] .work, h2,
    normalize_malformed_handling.2.2.1 rawNoDates .work rfl rfl,
    normalize_malformed_handling.2.2.2.1 _ h2.1 _ 0,
    normalize_malformed_handling.2.2.2.2.1 _ h2.2 _,
    normalize_malformed_handling.2.2.2.2.2 rawNoDates .work rfl⟩

/-! ## C5: expanded-mode clipping -/

/-- C5 (amended): for the current `DayColumn`'s positioned-event
computation, (i) an event is omitted exactly when it lies entirely before
or after the visible 07:00–22:00 range (`top ≥ 100` or `top + height ≤ 0`);
(ii) every rendered event has `top ≥ 0`, `top < 100` and `height ≥ 2`; an
event crossing the top boundary is clipped to `top = 0`; and the bottom
`top + height` never exceeds `max 100 (top + 2)` — i.e. it is within 100%
except that the 2%-minimum floor, applied after the bottom clip, may push
the bottom up to `top + 2` (at most 102%). -/
theorem positionedEventStyle_clipping (startTs endTs : ℤ) :
    (positionedEventStyle startTs endTs = none ↔
      (getTimePosition startTs START_HOUR END_HOUR ≥ 100 ∨
        getTimePosition startTs START_HOUR END_HOUR +
          getEventHeight startTs endTs START_HOUR END_HOUR ≤ 0)) ∧
    (∀ t h, positionedEventStyle startTs endTs = some (t, h) →
      0 ≤ t ∧ t < 100 ∧ 2 ≤ h ∧ t + h ≤ max 100 (t + 2) ∧
      (getTimePosition startTs START_HOUR END_HOUR < 0 → t = 0)) := by
  obtain ⟨p, hp⟩ : ∃ p, getTimePosition startTs START_HOUR END_HOUR = p := ⟨_, rfl⟩
  obtain ⟨q, hq⟩ : ∃ q, getEventHeight startTs endTs START_HOUR END_HOUR = q := ⟨_, rfl⟩
  have hunfold : positionedEventStyle startTs endTs =
      if p ≥ 100 ∨ p + q ≤ 0 then none
      else
        some (max 0 p,
          max (if max 0 p + (if p < 0 then q + p else q) > 100
            then 100 - max 0 p
            else if p < 0 then q + p else q) 2) := by
    simp only [positionedEventStyle, hp, hq]
  rw [hp, hq, hunfold]
  by_cases hc : p ≥ 100 ∨ p + q ≤ 0
  · rw [if_pos hc]
    exact ⟨iff_of_true rfl hc, fun t h hsome => absurd hsome (by simp)⟩
  · rw [if_neg hc]
    push_neg at hc
    refine ⟨iff_of_false (by simp) (by push_neg; exact hc), ?_⟩
    intro t h hsome
    simp only [Option.some.injEq, Prod.mk.injEq] at hsome
    obtain ⟨ht, hh⟩ := hsome
    subst ht
    subst hh
    refine ⟨le_max_left _ _, max_lt (by norm_num) hc.1, le_max_right _ _, ?_, ?_⟩
    · by_cases hb : max 0 p + (if p < 0 then q + p else q) > 100
      · rw [if_pos hb]
        rcases max_cases (100 - max 0 p) 2 with ⟨hEq, -⟩ | ⟨hEq, -⟩
        · rw [hEq]
          have : max 0 p + (100 - max 0 p) = 100 := by ring
          rw [this]
          exact le_max_left _ _
        · rw [hEq]
          exact le_max_right _ _
      · rw [if_neg hb]
        push_neg at hb
        rcases max_cases (if p < 0 then q + p else q) 2 with ⟨hEq, -⟩ | ⟨hEq, -⟩
        · rw [hEq]
          exact le_trans hb (le_max_left _ _)
        · rw [hEq]
          exact le_max_right _ _
    · intro hneg
      exact max_eq_left (le_of_lt hneg)

/-- C5 counterexample: the timed event 21:51–22:00 (day 0) has `top = 99%`
and raw height `1%`; the 2%-minimum floor is applied after the bottom clip,
so it renders as `some (99, 2)` with bottom `101% > 100%`, refuting
"the rendered bottom is never above 100%". -/
theorem positionedEventStyle_bottom_overflow :
    positionedEventStyle 78660000 79200000 = some (99, 2) ∧
    ¬((99 : ℚ) + 2 ≤ 100) := by
  have h1 : totalMinutesOfDay 78660000 = 1311 := by decide
  have h2 : Int.tdiv (79200000 - 78660000) 60000 = 9 := by decide
  constructor
  · simp only [positionedEventStyle, getTimePosition, getEventHeight, h1, h2,
      START_HOUR, END_HOUR]
    norm_num
  · norm_num

/-- C5 witness: the spec's own example event 09:00–10:30 renders at
`top = 40/3 ≈ 13.33%`, `height = 10%`, and satisfies every amended bound. -/
theorem positionedEventStyle_clipping_witness :
    positionedEventStyle 32400000 37800000 = some (40 / 3, 10) ∧
    (0 ≤ (40 / 3 : ℚ) ∧ (40 / 3 : ℚ) < 100 ∧ 2 ≤ (10 : ℚ) ∧
      (40 / 3 : ℚ) + 10 ≤ max 100 (40 / 3 + 2) ∧
      (getTimePosition 32400000 START_HOUR END_HOUR < 0 → (40 / 3 : ℚ) = 0)) := by
  have h1 : totalMinutesOfDay 32400000 = 540 := by decide
  have h2 : Int.tdiv (37800000 - 32400000) 60000 = 90 := by decide
  have hsome : positionedEventStyle 32400000 37800000 = some (40 / 3, 10) := by
    simp only [positionedEventStyle, getTimePosition, getEventHeight, h1, h2,
      START_HOUR, END_HOUR]
    norm_num
  exact ⟨hsome, (positionedEventStyle_clipping 32400000 37800000).2 _ _ hsome⟩

/-! ## C6: compact-mode cap -/

/-- Is a rendered node a compact chip? -/
def isChipRender : TimedRender → Bool
  | .chip _ => true
  | _ => false

/-- Is a rendered node a `"+N more"` overflow indicator? -/
def isMoreRender : TimedRender → Bool
  | .moreIndicator _ => true
  | _ => false

/-- A timed event 08:00–09:00 on day 0 with the given id. -/
def mkTimedEvent (id : String) : CalEvent :=
  { id := id
    accountId := .work
    title := id
    allDay := false
    startTs := some 28800000
    endTs := some 32400000
    color := "c" }

/-- Seven timed events for one day (time-sorted, all 08:00–09:00). -/
def sevenTimedEvents : List CalEvent :=
  ["t1", "t2", "t3", "t4", "t5", "t6", "t7"].map mkTimedEvent

/-- C6 counterexample: in compact mode (`pxPerDay = 50 < 80`) the current
`DayColumn` renders all 7 timed events as positioned blocks — 0 chips, no
overflow indicator — refuting "exactly min(n,5) = 5 render as chips and a
'+2 more' indicator is rendered". -/
theorem dayColumn_compact_cap_counterexample :
    isCompactMode 50 = true ∧
    (dayContentTimedCurrent sevenTimedEvents).length = 7 ∧
    (dayContentTimedCurrent sevenTimedEvents).countP isChipRender = 0 ∧
    (dayContentTimedCurrent sevenTimedEvents).countP isMoreRender = 0 ∧
    (7 : ℕ) ≠ min 7 5 := by
  have h1 : totalMinutesOfDay 28800000 = 480 := by decide
  have h2 : Int.tdiv (32400000 - 28800000) 60000 = 60 := by decide
  have hpos : positionedEventStyle 28800000 32400000 = some (20 / 3, 20 / 3) := by
    simp only [positionedEventStyle, getTimePosition, getEventHeight, h1, h2,
      START_HOUR, END_HOUR]
    norm_num
  refine ⟨?_, ?_, ?_, ?_, by decide⟩
  · rw [isCompactMode, COMPACT_THRESHOLD]
    norm_num
  · simp [dayContentTimedCurrent, sevenTimedEvents, mkTimedEvent, hpos]
  · simp [dayContentTimedCurrent, sevenTimedEvents, mkTimedEvent, hpos, isChipRender]
  · simp [dayContentTimedCurrent, sevenTimedEvents, mkTimedEvent, hpos, isMoreRender]

/-- C6 (amended): the 5-chip cap with the `"+N more"` indicator is the
behavior of the legacy `DayColumn.tsx` compact branch: exactly
`min(n, 5)` chips (the first five events, in list order), one overflow
indicator iff `n > 5`, and for 7 events exactly the chips `t1`–`t5`
followed by `"+2 more"`.  The current `DayColumn` has no compact branch:
the same 7 events always yield 7 positioned blocks and 0 chips. -/
theorem dayColumn_compact_cap :
    (∀ l : List CalEvent,
        (dayContentTimedLegacy true l).countP isChipRender = min l.length 5) ∧
    (∀ l : List CalEvent, 5 < l.length →
        (dayContentTimedLegacy true l).countP isMoreRender = 1) ∧
    (∀ l : List CalEvent, l.length ≤ 5 →
        (dayContentTimedLegacy true l).countP isMoreRender = 0) ∧
    dayContentTimedLegacy true sevenTimedEvents =
      [.chip "t1", .chip "t2", .chip "t3", .chip "t4", .chip "t5",
        .moreIndicator ("+" ++ toString (2 : ℕ) ++ " more")] ∧
    (dayContentTimedCurrent sevenTimedEvents).length = 7 ∧
    (dayContentTimedCurrent sevenTimedEvents).countP isChipRender = 0 := by
  have h1 : totalMinutesOfDay 28800000 = 480 := by decide
  have h2 : Int.tdiv (32400000 - 28800000) 60000 = 60 := by decide
  have hpos : positionedEventStyle 28800000 32400000 = some (20 / 3, 20 / 3) := by
    simp only [positionedEventStyle, getTimePosition, getEventHeight, h1, h2,
      START_HOUR, END_HOUR]
    norm_num
  have hchip : ∀ l' : List CalEvent,
      (l'.map (fun e => TimedRender.chip e.id)).countP isChipRender = l'.length := by
    intro l'
    induction l' with
    | nil => rfl
    | cons a t ih => simp [List.countP_cons, isChipRender, ih]
  have hmore : ∀ l' : List CalEvent,
      (l'.map (fun e => TimedRender.chip e.id)).countP isMoreRender = 0 := by
    intro l'
    induction l' with
    | nil => rfl
    | cons a t ih => simp [List.countP_cons, isMoreRender, ih]
  have hcore : ∀ l : List CalEvent, dayContentTimedLegacy true l =
      (l.take 5).map (fun e => TimedRender.chip e.id) ++
        (if l.length > 5 then
          [TimedRender.moreIndicator ("+" ++ toString (l.length - 5) ++ " more")]
        else []) := fun _ => rfl
  refine ⟨?_, ?_, ?_, by decide, ?_, ?_⟩
  · intro l
    rw [hcore, List.countP_append, hchip]
    by_cases hl : l.length > 5
    · rw [if_pos hl]
      simp [List.countP_cons, isChipRender, List.length_take]
      omega
    · rw [if_neg hl]
      simp only [List.countP_nil, List.length_take]
      omega
  · intro l hl
    rw [hcore, List.countP_append, hmore, if_pos hl]
    simp [List.countP_cons, isMoreRender]
  · intro l hl
    have hl' : ¬(l.length > 5) := by omega
    rw [hcore, List.countP_append, hmore, if_neg hl']
    simp
  · simp [dayContentTimedCurrent, sevenTimedEvents, mkTimedEvent, hpos]
  · simp [dayContentTimedCurrent, sevenTimedEvents, mkTimedEvent, hpos, isChipRender]

/-- C6 witness: the legacy cap at the concrete 7-event day — 5 chips
(`min 7 5`) and exactly one overflow indicator. -/
theorem dayColumn_compact_cap_witness :
    (dayContentTimedLegacy true sevenTimedEvents).countP isChipRender =
      min sevenTimedEvents.length 5 ∧
    5 < sevenTimedEvents.length ∧
    (dayContentTimedLegacy true sevenTimedEvents).countP isMoreRender = 1 :=
  ⟨dayColumn_compact_cap.1 sevenTimedEvents, by decide,
    dayColumn_compact_cap.2.1 sevenTimedEvents (by decide)⟩

/-! ## C4: greedy first-fit row packing -/

/-- The overlap test is symmetric. -/
theorem spanOverlapB_symm (a b : SpanPos) : spanOverlapB a b = spanOverlapB b a := by
  simp only [spanOverlapB, ge_iff_le]
  exact Bool.and_comm _ _

/-- One packing step preserves "no two spans in a row overlap". -/
theorem addToRows_pairwise (rows : List (List SpanPos)) (s : SpanPos)
    (h : ∀ row ∈ rows, row.Pairwise fun a b => spanOverlapB a b = false) :
    ∀ row ∈ addToRows rows s, row.Pairwise fun a b => spanOverlapB a b = false := by
  induction rows with
  | nil =>
      intro row hrow
      simp only [addToRows, List.mem_singleton] at hrow
      subst hrow
      exact List.pairwise_singleton _ _
  | cons r rest ih =>
      intro row hrow
      simp only [addToRows] at hrow
      by_cases hov : r.any (fun existingSpan => spanOverlapB s existingSpan) = true
      · rw [if_pos hov] at hrow
        rcases List.mem_cons.1 hrow with hrow | hrow
        · exact hrow ▸ h r (List.mem_cons_self r rest)
        · exact ih (fun row' hr' => h row' (List.mem_cons_of_mem r hr')) row hrow
      · rw [if_neg hov] at hrow
        rcases List.mem_cons.1 hrow with hrow | hrow
        · subst hrow
          rw [List.pairwise_append]
          refine ⟨h r (List.mem_cons_self r rest), List.pairwise_singleton _ _, ?_⟩
          intro a ha b hb
          rw [List.mem_singleton] at hb
          subst hb
          have := List.any_eq_false.1 (Bool.not_eq_true _ ▸ hov) a ha
          rw [spanOverlapB_symm]
          simpa using this
        · exact h row (List.mem_cons_of_mem r hrow)

/-- The packing fold preserves the row invariant from any starting rows. -/
theorem foldl_addToRows_pairwise (l : List SpanPos) (rows : List (List SpanPos))
    (h : ∀ row ∈ rows, row.Pairwise fun a b => spanOverlapB a b = false) :
    ∀ row ∈ l.foldl addToRows rows,
      row.Pairwise fun a b => spanOverlapB a b = false := by
  induction l generalizing rows with
  | nil => exact h
  | cons s t ih => exact ih (addToRows rows s) (addToRows_pairwise rows s h)

/-- The timeline of the C3/C4 span examples: days 0–10. -/
def dates11 : List ℤ := [0, 1, 2, 3, 4, 5, 6, 7, 8, 9, 10]

/-- An all-day multi-day span event covering `[startDay, endDayExcl)`. -/
def mkSpanEvent (id : String) (startDay endDayExcl : ℤ) : CalEvent :=
  { id := id
    accountId := .work
    title := id
    allDay := true
    startTs := some (startDay * msPerDay)
    endTs := some (endDayExcl * msPerDay)
    color := "#6366f1"
    isTimeSpan := true }

/-- The three spans of the spec's packing example: day intervals `[0,5]`,
`[2,8]` and `[6,10]` (exclusive provider ends 6, 9 and 11). -/
def exampleSpans : List CalEvent :=
  [mkSpanEvent "A" 0 6, mkSpanEvent "B" 2 9, mkSpanEvent "C" 6 11]

/-- C4: greedy first-fit packing.  On the spec's example (spans `[0,5]`,
`[2,8]`, `[6,10]`, full window), the packer uses exactly 2 rows, putting
`A = [0,5]` and `C = [6,10]` in row 0 and `B = [2,8]` in row 1; and in
general, no two spans assigned to the same row overlap (for every input
list fed to the packing fold). -/
theorem span_row_packing :
    rowIndexList dates11 100 (0, 10) exampleSpans =
      [("A", 0), ("B", 1), ("C", 0)] ∧
    (buildRows (sortByOrigStart (spansWithPositions dates11 100 (0, 10)
      exampleSpans))).length = 2 ∧
    (∀ (l : List SpanPos) (row : List SpanPos), row ∈ buildRows l →
      row.Pairwise fun a b => spanOverlapB a b = false) := by
  refine ⟨by decide, by decide, ?_⟩
  intro l row hrow
  exact foldl_addToRows_pairwise l [] (by simp) row hrow

/-- A concrete positioned span for the packing witness. -/
def wSpanPos : SpanPos :=
  { span := mkSpanEvent "W" 0 6
    left := 0
    width := 100
    startIndex := 0
    endIndex := 5
    originalStartIndex := 0
    originalEndIndex := 5 }

/-- C4 witness: the no-overlap row invariant at a concrete packed row. -/
theorem span_row_packing_witness :
    [wSpanPos] ∈ buildRows [wSpanPos] ∧
    List.Pairwise (fun a b => spanOverlapB a b = false) [wSpanPos] := by
  have hmem : [wSpanPos] ∈ buildRows [wSpanPos] := by
    rw [show buildRows [wSpanPos] = [[wSpanPos]] from rfl]
    exact List.mem_singleton_self _
  exact ⟨hmem, span_row_packing.2.2 [wSpanPos] [wSpanPos] hmem⟩

/-! ## C3: lane assignment across visible windows -/

/-- What the row-assignment phase can observe about a positioned span: its
event id and its ORIGINAL (unclipped) day-index interval. -/
def spanSig (sp : SpanPos) : String × ℤ × ℤ :=
  (sp.span.id, sp.originalStartIndex, sp.originalEndIndex)

theorem spanSig_id {s1 s2 : SpanPos} (h : spanSig s1 = spanSig s2) :
    s1.span.id = s2.span.id := congrArg Prod.fst h

theorem spanSig_start {s1 s2 : SpanPos} (h : spanSig s1 = spanSig s2) :
    s1.originalStartIndex = s2.originalStartIndex := congrArg (fun p => p.2.1) h

theorem spanSig_end {s1 s2 : SpanPos} (h : spanSig s1 = spanSig s2) :
    s1.originalEndIndex = s2.originalEndIndex := congrArg (fun p => p.2.2) h

/-- The overlap test only reads the signature. -/
theorem spanOverlapB_sig {s1 s2 e1 e2 : SpanPos} (hs : spanSig s1 = spanSig s2)
    (he : spanSig e1 = spanSig e2) : spanOverlapB s1 e1 = spanOverlapB s2 e2 := by
  simp only [spanOverlapB, spanSig_start hs, spanSig_end hs, spanSig_start he,
    spanSig_end he]

/-- The per-row overlap check only reads signatures. -/
theorem any_overlap_sig : ∀ {row1 row2 : List SpanPos},
    row1.map spanSig = row2.map spanSig → ∀ {s1 s2 : SpanPos},
    spanSig s1 = spanSig s2 →
    row1.any (fun e => spanOverlapB s1 e) = row2.any (fun e => spanOverlapB s2 e) := by
  intro row1
  induction row1 with
  | nil =>
      intro row2 h s1 s2 hs
      cases row2 with
      | nil => rfl
      | cons => simp at h
  | cons a t ih =>
      intro row2 h
      cases row2 with
      | nil => simp at h
      | cons b u =>
          simp only [List.map_cons, List.cons.injEq] at h
          intro s1 s2 hs
          simp only [List.any_cons]
          rw [spanOverlapB_sig hs h.1, ih h.2 hs]

/-- Stable insertion only reads signatures. -/
theorem insertByOrigStart_sig : ∀ {l1 l2 : List SpanPos},
    l1.map spanSig = l2.map spanSig → ∀ {a1 a2 : SpanPos},
    spanSig a1 = spanSig a2 →
    (insertByOrigStart a1 l1).map spanSig = (insertByOrigStart a2 l2).map spanSig := by
  intro l1
  induction l1 with
  | nil =>
      intro l2 h a1 a2 ha
      cases l2 with
      | nil => simp [insertByOrigStart, ha]
      | cons => simp at h
  | cons b1 t1 ih =>
      intro l2 h a1 a2 ha
      cases l2 with
      | nil => simp at h
      | cons b2 t2 =>
          simp only [List.map_cons, List.cons.injEq] at h
          simp only [insertByOrigStart]
          by_cases hcmp : a1.originalStartIndex < b1.originalStartIndex
          · rw [if_pos hcmp,
              if_pos (by rw [← spanSig_start ha, ← spanSig_start h.1]; exact hcmp)]
            simp only [List.map_cons, List.cons.injEq]
            exact ⟨ha, h.1, h.2⟩
          · rw [if_neg hcmp,
              if_neg (by rw [← spanSig_start ha, ← spanSig_start h.1]; exact hcmp)]
            simp only [List.map_cons, List.cons.injEq]
            exact ⟨h.1, ih h.2 ha⟩

/-- The insertion-sort fold only reads signatures. -/
theorem foldl_insert_sig : ∀ {l1 l2 : List SpanPos},
    l1.map spanSig = l2.map spanSig → ∀ {acc1 acc2 : List SpanPos},
    acc1.map spanSig = acc2.map spanSig →
    (l1.foldl (fun acc a => insertByOrigStart a acc) acc1).map spanSig =
      (l2.foldl (fun acc a => insertByOrigStart a acc) acc2).map spanSig := by
  intro l1
  induction l1 with
  | nil =>
      intro l2 h acc1 acc2 hacc
      cases l2 with
      | nil => exact hacc
      | cons => simp at h
  | cons a1 t1 ih =>
      intro l2 h
      cases l2 with
      | nil => simp at h
      | cons a2 t2 =>
          simp only [List.map_cons, List.cons.injEq] at h
          intro acc1 acc2 hacc
          simp only [List.foldl_cons]
          exact ih h.2 (insertByOrigStart_sig hacc h.1)

/-- Sorting only reads signatures. -/
theorem sortByOrigStart_sig {l1 l2 : List SpanPos}
    (h : l1.map spanSig = l2.map spanSig) :
    (sortByOrigStart l1).map spanSig = (sortByOrigStart l2).map spanSig :=
  foldl_insert_sig h rfl

/-- One packing step only reads signatures. -/
theorem addToRows_sig : ∀ {rows1 rows2 : List (List SpanPos)},
    rows1.map (List.map spanSig) = rows2.map (List.map spanSig) →
    ∀ {s1 s2 : SpanPos}, spanSig s1 = spanSig s2 →
    (addToRows rows1 s1).map (List.map spanSig) =
      (addToRows rows2 s2).map (List.map spanSig) := by
  intro rows1
  induction rows1 with
  | nil =>
      intro rows2 h s1 s2 hs
      cases rows2 with
      | nil => simp [addToRows, hs]
      | cons => simp at h
  | cons r1 rest1 ih =>
      intro rows2 h s1 s2 hs
      cases rows2 with
      | nil => simp at h
      | cons r2 rest2 =>
          simp only [List.map_cons, List.cons.injEq] at h
          simp only [addToRows]
          rw [any_overlap_sig h.1 hs]
          by_cases hov : r2.any (fun existingSpan => spanOverlapB s2 existingSpan) = true
          · rw [if_pos hov, if_pos hov]
            simp only [List.map_cons, List.cons.injEq]
            exact ⟨h.1, ih h.2 hs⟩
          · rw [if_neg hov, if_neg hov]
            simp only [List.map_cons, List.cons.injEq, List.map_append]
            exact ⟨by simp [h.1, hs], h.2⟩

/-- The packing fold only reads signatures. -/
theorem foldl_addToRows_sig : ∀ {l1 l2 : List SpanPos},
    l1.map spanSig = l2.map spanSig →
    ∀ {rows1 rows2 : List (List SpanPos)},
    rows1.map (List.map spanSig) = rows2.map (List.map spanSig) →
    (l1.foldl addToRows rows1).map (List.map spanSig) =
      (l2.foldl addToRows rows2).map (List.map spanSig) := by
  intro l1
  induction l1 with
  | nil =>
      intro l2 h rows1 rows2 hrows
      cases l2 with
      | nil => exact hrows
      | cons => simp at h
  | cons a1 t1 ih =>
      intro l2 h
      cases l2 with
      | nil => simp at h
      | cons a2 t2 =>
          simp only [List.map_cons, List.cons.injEq] at h
          intro rows1 rows2 hrows
          simp only [List.foldl_cons]
          exact ih h.2 (addToRows_sig hrows h.1)

/-- Row building only reads signatures. -/
theorem buildRows_sig {l1 l2 : List SpanPos} (h : l1.map spanSig = l2.map spanSig) :
    (buildRows l1).map (List.map spanSig) = (buildRows l2).map (List.map spanSig) :=
  foldl_addToRows_sig h rfl

/-- The id-membership check of `rowIndexOf` only reads signatures. -/
theorem any_id_sig : ∀ {row1 row2 : List SpanPos},
    row1.map spanSig = row2.map spanSig → ∀ {s1 s2 : SpanPos},
    spanSig s1 = spanSig s2 →
    row1.any (fun e => e.span.id == s1.span.id) =
      row2.any (fun e => e.span.id == s2.span.id) := by
  intro row1
  induction row1 with
  | nil =>
      intro row2 h s1 s2 hs
      cases row2 with
      | nil => rfl
      | cons => simp at h
  | cons a t ih =>
      intro row2 h
      cases row2 with
      | nil => simp at h
      | cons b u =>
          simp only [List.map_cons, List.cons.injEq] at h
          intro s1 s2 hs
          simp only [List.any_cons]
          rw [spanSig_id h.1, spanSig_id hs, ih h.2 rfl]

/-- The row lookup of a span only reads signatures. -/
theorem rowIndexOf_sig : ∀ {rows1 rows2 : List (List SpanPos)},
    rows1.map (List.map spanSig) = rows2.map (List.map spanSig) →
    ∀ {s1 s2 : SpanPos}, spanSig s1 = spanSig s2 →
    rowIndexOf rows1 s1 = rowIndexOf rows2 s2 := by
  have hfind : ∀ (rows1 rows2 : List (List SpanPos)),
      rows1.map (List.map spanSig) = rows2.map (List.map spanSig) →
      ∀ (s1 s2 : SpanPos), spanSig s1 = spanSig s2 → ∀ (i : ℕ),
      rows1.findIdx? (fun row => row.any (fun e => e.span.id == s1.span.id)) i =
        rows2.findIdx? (fun row => row.any (fun e => e.span.id == s2.span.id)) i := by
    intro rows1
    induction rows1 with
    | nil =>
        intro rows2 h s1 s2 hs i
        cases rows2 with
        | nil => rfl
        | cons => simp at h
    | cons r1 rest1 ih =>
        intro rows2 h
        cases rows2 with
        | nil => simp at h
        | cons r2 rest2 =>
            simp only [List.map_cons, List.cons.injEq] at h
            intro s1 s2 hs i
            simp only [List.findIdx?_cons]
            rw [any_id_sig h.1 hs]
            by_cases hp : r2.any (fun e => e.span.id == s2.span.id) = true
            · rw [if_pos hp, if_pos hp]
            · rw [if_neg hp, if_neg hp, ih rest2 h.2 s1 s2 hs (i + 1)]
  intro rows1 rows2 h s1 s2 hs
  rw [rowIndexOf, rowIndexOf, hfind rows1 rows2 h s1 s2 hs 0]

/-- The final (id, row) listing only reads signatures. -/
theorem map_rowIndex_sig : ∀ {l1 l2 : List SpanPos},
    l1.map spanSig = l2.map spanSig →
    ∀ {rows1 rows2 : List (List SpanPos)},
    rows1.map (List.map spanSig) = rows2.map (List.map spanSig) →
    l1.map (fun s => (s.span.id, rowIndexOf rows1 s)) =
      l2.map (fun s => (s.span.id, rowIndexOf rows2 s)) := by
  intro l1
  induction l1 with
  | nil =>
      intro l2 h rows1 rows2 hrows
      cases l2 with
      | nil => rfl
      | cons => simp at h
  | cons a1 t1 ih =>
      intro l2 h
      cases l2 with
      | nil => simp at h
      | cons a2 t2 =>
          simp only [List.map_cons, List.cons.injEq] at h
          intro rows1 rows2 hrows
          simp only [List.map_cons, List.cons.injEq]
          exact ⟨by rw [spanSig_id h.1, rowIndexOf_sig hrows h.1], ih h.2 hrows⟩

/-- C3 counterexample: with spans `[0,5]`, `[2,8]`, `[6,10]`, span `B`
(interval `[2,8]`) overlaps both the window `(0,10)` and the window
`(6,10)` (it appears in both lane listings), yet it is assigned row 1 in
the first window and row 0 in the second — the spans passing the window
filter differ (`A` drops out), so lane assignment is NOT stable across
windows even though each assignment uses original intervals. -/
theorem lane_assignment_window_counterexample :
    rowIndexList dates11 100 (0, 10) exampleSpans =
      [("A", 0), ("B", 1), ("C", 0)] ∧
    rowIndexList dates11 100 (6, 10) exampleSpans = [("B", 0), ("C", 1)] ∧
    (1 : ℤ) ≠ 0 := by
  refine ⟨by decide, by decide, by decide⟩

/-- C3 (amended): row-lane assignment uses each span's original (unclipped)
day-index interval — formally, the `(id, rowIndex)` listing depends only on
the filtered spans' ids and original intervals, so any two windows (and
zoom levels) admitting the same filtered spans produce identical lane
assignments; and only the rendered `left`/`width` are clipped: every
produced span position has its clipped `[startIndex, endIndex]` inside the
visible window with `left`/`width` computed from the clipped indices.
(Stability fails only when the filtered span set itself changes, as the
counterexample shows.) -/
theorem lane_assignment_uses_original_intervals :
    (∀ (dates : List ℤ) (px1 px2 : ℚ) (v1 v2 : ℤ × ℤ) (ts : List CalEvent),
        (spansWithPositions dates px1 v1 ts).map spanSig =
          (spansWithPositions dates px2 v2 ts).map spanSig →
        rowIndexList dates px1 v1 ts = rowIndexList dates px2 v2 ts) ∧
    (∀ (dates : List ℤ) (px : ℚ) (v : ℤ × ℤ) (span : CalEvent) (sp : SpanPos),
        spanPosition dates px v span = some sp →
        v.1 ≤ sp.startIndex ∧ sp.endIndex ≤ v.2 ∧
        sp.left = (sp.startIndex : ℚ) * px ∧
        sp.width = ((sp.endIndex - sp.startIndex + 1 : ℤ) : ℚ) * px) := by
  constructor
  · intro dates px1 px2 v1 v2 ts h
    have hkey : ∀ (px : ℚ) (v : ℤ × ℤ), rowIndexList dates px v ts =
        (sortByOrigStart (spansWithPositions dates px v ts)).map
          (fun s => (s.span.id,
            rowIndexOf (buildRows (sortByOrigStart (spansWithPositions dates px v ts))) s)) := by
      intro px v
      simp [rowIndexList, visibleTimeSpans]
    rw [hkey, hkey]
    exact map_rowIndex_sig (sortByOrigStart_sig h)
      (buildRows_sig (sortByOrigStart_sig h))
  · intro dates px v span sp hsp
    simp only [spanPosition] at hsp
    split_ifs at hsp
    all_goals
      first
        | exact Option.noConfusion hsp
        | (simp only [Option.some.injEq] at hsp
           subst hsp
           exact ⟨le_max_right _ _, min_le_right _ _, rfl, rfl⟩)

/-- The position of span `B` (`[2,8]`) inside the visible window `(6, 10)`:
left/width clipped to days 6–8, original interval kept. -/
def spanPosB : SpanPos :=
  { span := mkSpanEvent "B" 2 9
    left := 600
    width := 300
    startIndex := 6
    endIndex := 8
    originalStartIndex := 2
    originalEndIndex := 8 }

/-- C3 witness: the windows `(0, 10)` and `(0, 99)` admit the same filtered
spans, so their lane assignments agree; and span `B` in window `(6, 10)` is
clipped to `[6, 8]` with `left = 600`, `width = 300` while keeping its
original interval `[2, 8]`. -/
theorem lane_assignment_uses_original_intervals_witness :
    ((spansWithPositions dates11 100 (0, 10) exampleSpans).map spanSig =
        (spansWithPositions dates11 100 (0, 99) exampleSpans).map spanSig ∧
      rowIndexList dates11 100 (0, 10) exampleSpans =
        rowIndexList dates11 100 (0, 99) exampleSpans) ∧
    (spanPosition dates11 100 (6, 10) (mkSpanEvent "B" 2 9) = some spanPosB ∧
      ((6, 10) : ℤ × ℤ).1 ≤ spanPosB.startIndex ∧ spanPosB.endIndex ≤ ((6, 10) : ℤ × ℤ).2 ∧
      spanPosB.left = (spanPosB.startIndex : ℚ) * 100 ∧
      spanPosB.width = ((spanPosB.endIndex - spanPosB.startIndex + 1 : ℤ) : ℚ) * 100) := by
  have hsig : (spansWithPositions dates11 100 (0, 10) exampleSpans).map spanSig =
      (spansWithPositions dates11 100 (0, 99) exampleSpans).map spanSig := by decide
  have hf1 : Int.fdiv (2 * msPerDay) msPerDay = 2 := by decide
  have hf2 : Int.fdiv (9 * msPerDay) msPerDay - 1 = 8 := by decide
  have h1 : findDayIndex dates11 2 = 2 := by decide
  have h2 : findDayIndex dates11 8 = 8 := by decide
  have h3 : dates11.length = 11 := by decide
  have hsome : spanPosition dates11 100 (6, 10) (mkSpanEvent "B" 2 9) = some spanPosB := by
    rw [spanPosition]
    simp only [mkSpanEvent, Option.map_some', if_true]
    rw [hf1, hf2, h1, h2]
    simp only [spanPosB, h3]
    norm_num [mkSpanEvent]
  refine ⟨⟨hsig, lane_assignment_uses_original_intervals.1 dates11 100 100
    (0, 10) (0, 99) exampleSpans hsig⟩, hsome,
    lane_assignment_uses_original_intervals.2 dates11 100 (6, 10)
      (mkSpanEvent "B" 2 9) spanPosB hsome⟩
